import Mathlib

/-!
Verification of the MapleSEA notifier (maplesea_notifier.py).

Shallow embedding notes:
* HTML fetching/parsing is the collaborator described in the spec; a page is
  modelled as the document-ordered list of its anchor elements (`Anchor`),
  each carrying the raw `href` attribute, the rendered (whitespace-collapsed,
  stripped) link text, and the rendered text of its parent container.
* The network is modelled as oracles: `web` maps a listing url to either an
  exception or the fetched page's anchors; `net` maps an item and an attempt
  index to the HTTP response of the webhook POST.
* The persisted state file is modelled by `FileState`: missing, unreadable,
  malformed (json.loads fails), or well-formed JSON content.
* Uncaught Python exceptions are modelled by returning `none` / failure
  values.  Machine floats of the Retry-After parsing are modelled as exact
  extended rationals (`PyFloat`): finite values carry a ℚ, with infinities
  and NaN as separate cases.  IEEE-754 rounding/overflow of parsed literals,
  non-ASCII decimal digits, and CPython's internal conversion limits inside
  `time.sleep` are not modelled: any non-negative finite parsed delay is
  modelled as sleepable, while a negative, infinite or NaN delay makes the
  sleep raise (as CPython's `time.sleep` does), uncaught at line 132.
* Model restriction: python `sorted` at the final save is modelled only for
  seen-sets all of whose elements are strings; a run whose seen set holds a
  non-string element is treated as a failed run (`none`).  No claim below
  depends on runs with non-string seen elements.
-/

namespace MapleSea

/-- Generic character-list helpers (Python `in`, `startswith`, `strip`). -/
def leadsWith : List Char → List Char → Bool
  | [], _ => true
  | _ :: _, [] => false
  | a :: as_, b :: bs => a == b && leadsWith as_ bs

/-- `hasSub needle hay` : does `hay` contain `needle` as a contiguous substring. -/
def hasSub (needle : List Char) : List Char → Bool
  | [] => needle.isEmpty
  | c :: rest => leadsWith needle (c :: rest) || hasSub needle rest

/-- Python `p in h` on strings. -/
def strHas (h p : String) : Bool := hasSub p.toList h.toList

/-- Python `s.startswith(p)`. -/
def pyStarts (s p : String) : Bool := leadsWith p.toList s.toList

/-- Python `s.strip()`. -/
def pyStrip (s : String) : String :=
  String.mk (((s.toList.dropWhile Char.isWhitespace).reverse.dropWhile Char.isWhitespace).reverse)

/-- Config constant: `BACKFILL_CAP_PER_SECTION = 15` (line 34). -/
def BACKFILL_CAP_PER_SECTION : Nat := 15

/-- Config constant: `POST_SPACING = 0.5` seconds (line 36). -/
def POST_SPACING : ℚ := 1 / 2

/-- Config constant: `RECENCY_DAYS = 7` (line 37; unused by the pipeline). -/
def RECENCY_DAYS : Nat := 7

/-- Config constant: `TIMEOUT = 30` seconds (line 31). -/
def TIMEOUT : Nat := 30

/-- The site origin prepended to root-relative hrefs (line 83). -/
def ORIGIN : String := "https://www.maplesea.com"

/-- `CHECK_PAGES` (lines 20-26), in the source's insertion order. -/
def CHECK_PAGES : List (String × String) :=
  [("Updates", "https://www.maplesea.com/updates"),
   ("News", "https://www.maplesea.com/news"),
   ("Notices", "https://www.maplesea.com/notices"),
   ("Events", "https://www.maplesea.com/events"),
   ("Announcements", "https://www.maplesea.com/announcements")]

/-- Parsed JSON values (the result of `json.loads`). -/
inductive Json where
  | null : Json
  | bool (b : Bool) : Json
  | num (n : Int) : Json
  | str (s : String) : Json
  | arr (elems : List Json) : Json
  | obj (fields : List (String × Json)) : Json

/-- The observable state of the persisted file `.state/seen_maplesea.json`
when a run starts. -/
inductive FileState where
  | missing : FileState
  | unreadable : FileState
  | malformed : FileState
  | wellFormed (j : Json) : FileState

/-- `load_state` (lines 47-52): `ensure_state_file` creates `{"seen": []}` when
the file is missing; any exception from reading or parsing yields
`{"seen": []}`. -/
def load_state : FileState → Json
  | .missing => Json.obj [("seen", Json.arr [])]
  | .unreadable => Json.obj [("seen", Json.arr [])]
  | .malformed => Json.obj [("seen", Json.arr [])]
  | .wellFormed j => j

/-- Python `state.get(key, dflt)` on the loaded JSON; `none` models the
`AttributeError` raised when the loaded document is not a JSON object. -/
def pyDictGet : Json → String → Json → Option Json
  | .obj fields, key, dflt => some ((List.lookup key fields).getD dflt)
  | _, _, _ => none

/-- Python `e == u` where `u` is a string: a string equals only an equal
string, never a value of another JSON type. -/
def jsonStrEq : Json → String → Bool
  | .str t, u => t == u
  | _, _ => false

/-- Python `u in already` for the in-memory seen set (a list modelling the
set's elements). -/
def seenMem (l : List Json) (u : String) : Bool := l.any (fun e => jsonStrEq e u)

/-- Python `already.add(u)` for a string url. -/
def seenInsert (l : List Json) (u : String) : List Json :=
  if seenMem l u then l else l ++ [Json.str u]

/-- One step of python `set(...)` construction.  String elements are added
with set semantics; non-string elements are kept without dedup — a model
restriction that is observable only in runs that fail at the final
`sorted` anyway (see the module docstring). -/
def pySetAdd (l : List Json) : Json → List Json
  | .str s => seenInsert l s
  | j => l ++ [j]

/-- Python `set(v)` over the value found under `"seen"`: an array yields the
set of its elements, a string the set of its characters, an object the set
of its keys; `set()` of a non-iterable raises `TypeError` (`none`). -/
def pySet : Json → Option (List Json)
  | .arr es => some (es.foldl pySetAdd [])
  | .str s => some (s.toList.foldl (fun acc c => pySetAdd acc (Json.str (String.mk [c]))) [])
  | .obj fields => some (fields.foldl (fun acc kv => pySetAdd acc (Json.str kv.1)) [])
  | _ => none

/-- `already = set(state.get("seen", []))` (line 142); `none` models the run
crashing with an uncaught exception there. -/
def initialSeenOf (fs : FileState) : Option (List Json) :=
  match pyDictGet (load_state fs) "seen" (Json.arr []) with
  | none => none
  | some v => pySet v

/-- Lexicographic code-point order on strings (python string `<`). -/
def strLeB : List Char → List Char → Bool
  | [], _ => true
  | _ :: _, [] => false
  | a :: as_, b :: bs =>
    if a.toNat < b.toNat then true
    else if b.toNat < a.toNat then false
    else strLeB as_ bs

/-- Insert into an ascending list (one step of the `sorted` model). -/
def insertSorted (s : String) : List String → List String
  | [] => [s]
  | x :: rest => if strLeB s.toList x.toList then s :: x :: rest else x :: insertSorted s rest

/-- Python `sorted` on a list of strings (ascending code-point order). -/
def pySorted (l : List String) : List String := l.foldr insertSorted []

/-- Extract the string payloads of a seen set; `none` when a non-string
element is present (python `sorted` would then raise `TypeError`, and the
model conservatively treats every non-string-bearing run as failed). -/
def allStrings : List Json → Option (List String)
  | [] => some []
  | Json.str s :: rest =>
    match allStrings rest with
    | some l => some (s :: l)
    | none => none
  | _ :: _ => none

/-- `sorted(list(already))` (line 176). -/
def pySortedUrls (l : List Json) : Option (List String) :=
  match allStrings l with
  | none => none
  | some strs => some (pySorted strs)

/-- One anchor element of a listing page, as rendered by the HTML parser:
the raw `href` attribute (absent when the anchor has none), the rendered
link text (`a.get_text(" ", strip=True)`), and the rendered text of the
nearest parent container (`a.find_parent().get_text(" ", strip=True)`,
absent when the anchor has no parent). -/
structure Anchor where
  href : Option String
  text : String
  parentText : Option String
deriving DecidableEq

/-- One discovered notice (the dicts built at lines 94-99).  The python key
`section` is a Lean keyword, hence `sectionName`. -/
structure Item where
  sectionName : String
  title : String
  url : String
  date_hint : String
deriving DecidableEq

/-- The six per-item view-path patterns of the CSS selector (lines 66-73). -/
def VIEW_PATTERNS : List String :=
  ["/announcements/view/", "/news/view/", "/events/view/",
   "/notices/view/", "/updates/view/", "/newnameauction/view/"]

/-- `soup.select("a[href*='...'] , ...")`: an anchor matches when its raw
`href` attribute is present and contains one of the view-path patterns. -/
def matchesSelector (a : Anchor) : Bool :=
  match a.href with
  | none => false
  | some h => VIEW_PATTERNS.any (fun p => strHas h p)

/-- Word character for the regex word boundary `\b` (`[A-Za-z0-9_]`). -/
def isWordChar (c : Char) : Bool := c.isAlphanum || c == '_'

/-- Regex alternative 1 at the current position: a bracketed `dd.dd` date. -/
def matchBracketDate : List Char → Option (List Char)
  | '[' :: a :: b :: '.' :: c :: d :: ']' :: _ =>
    if a.isDigit && b.isDigit && c.isDigit && d.isDigit then
      some ['[', a, b, '.', c, d, ']']
    else none
  | _ => none

/-- Regex alternative 2 at the current position: `\b\d+\s+days?\s+ago\b`.
`prevW` records whether the previous character is a word character. -/
def matchDaysAgo (prevW : Bool) (cs : List Char) : Option (List Char) :=
  if prevW then none
  else
    let ds := cs.takeWhile Char.isDigit
    if ds.isEmpty then none
    else
      let r1 := cs.dropWhile Char.isDigit
      let sp1 := r1.takeWhile Char.isWhitespace
      if sp1.isEmpty then none
      else
        match r1.dropWhile Char.isWhitespace with
        | 'd' :: 'a' :: 'y' :: r3 =>
          let (plural, r4) : List Char × List Char :=
            match r3 with
            | 's' :: r => (['s'], r)
            | _ => ([], r3)
          let sp2 := r4.takeWhile Char.isWhitespace
          if sp2.isEmpty then none
          else
            match r4.dropWhile Char.isWhitespace with
            | 'a' :: 'g' :: 'o' :: r6 =>
              match r6 with
              | [] => some (ds ++ sp1 ++ ['d', 'a', 'y'] ++ plural ++ sp2 ++ ['a', 'g', 'o'])
              | c :: _ =>
                if isWordChar c then none
                else some (ds ++ sp1 ++ ['d', 'a', 'y'] ++ plural ++ sp2 ++ ['a', 'g', 'o'])
            | _ => none
        | _ => none

/-- Regex alternative 3 at the current position: `\b\d{4}-\d{2}-\d{2}\b`. -/
def matchIsoDate (prevW : Bool) (cs : List Char) : Option (List Char) :=
  if prevW then none
  else
    match cs with
    | a :: b :: c :: d :: '-' :: e :: f :: '-' :: g :: h :: rest =>
      if a.isDigit && b.isDigit && c.isDigit && d.isDigit &&
         e.isDigit && f.isDigit && g.isDigit && h.isDigit &&
         (match rest with | [] => true | x :: _ => !isWordChar x) then
        some [a, b, c, d, '-', e, f, '-', g, h]
      else none
    | _ => none

/-- `re.search` over the three alternatives (line 90): scan positions left to
right, try the alternatives in the pattern's order, return `m.group(0)`. -/
def findDateHint : Bool → List Char → Option (List Char)
  | _, [] => none
  | prevW, c :: rest =>
    match matchBracketDate (c :: rest) with
    | some m => some m
    | none =>
      match matchDaysAgo prevW (c :: rest) with
      | some m => some m
      | none =>
        match matchIsoDate prevW (c :: rest) with
        | some m => some m
        | none => findDateHint (isWordChar c) rest

/-- The best-effort date hint near the link (lines 85-92): empty when the
anchor has no parent or the parent's text has no match. -/
def dateHintOf (parentText : Option String) : String :=
  match parentText with
  | none => ""
  | some txt =>
    match findDateHint false txt.toList with
    | some m => String.mk m
    | none => ""

/-- `if href.startswith("/"): href = "https://www.maplesea.com" + href`
(lines 82-83). -/
def resolveHref (href : String) : String :=
  if pyStarts href "/" then ORIGIN ++ href else href

/-- The loop body of lines 77-99 for one selected anchor: strip the href,
drop the anchor when href or title is empty, resolve root-relative hrefs,
attach the date hint. -/
def anchorToItem (section_name : String) (a : Anchor) : Option Item :=
  let href := pyStrip ((a.href).getD "")
  let title := a.text
  if href = "" || title = "" then none
  else
    some { sectionName := section_name, title := title,
           url := resolveHref href, date_hint := dateHintOf a.parentText }

/-- The `items` list of lines 76-99: selected anchors, in document order,
through the loop body, before dedup. -/
def itemsPre (section_name : String) (doc : List Anchor) : List Item :=
  (doc.filter matchesSelector).filterMap (anchorToItem section_name)

/-- The dedup loop of lines 101-107: keep the first occurrence of each url. -/
def dedupeByUrl : List String → List Item → List Item
  | _, [] => []
  | seen_urls, it :: rest =>
    if seen_urls.contains it.url then dedupeByUrl seen_urls rest
    else it :: dedupeByUrl (it.url :: seen_urls) rest

/-- `extract_items` (lines 60-108) with the page's anchors supplied by the
fetch/parse collaborator. -/
def extract_items (section_name : String) (doc : List Anchor) : List Item :=
  dedupeByUrl [] (itemsPre section_name doc)

/-- One HTTP response of the webhook endpoint; `headers` is the lookup
`r.headers.get`. -/
structure HttpResponse where
  status : Nat
  headers : String → Option String

/-- Python `a or b` for an optional string `a` (None and `""` are falsy). -/
def pyOrStr (a : Option String) (b : String) : String :=
  match a with
  | some s => if s = "" then b else s
  | none => b

/-- `r.headers.get("Retry-After") or r.headers.get("retry-after") or "2"`
(line 127). -/
def retryAfterRaw (r : HttpResponse) : String :=
  pyOrStr (r.headers "Retry-After") (pyOrStr (r.headers "retry-after") "2")

/-- Value of a digit string. -/
def digitsVal (cs : List Char) : Nat := cs.foldl (fun n c => n * 10 + (c.toNat - 48)) 0

/-- Continue a digit group after a digit: further digits, with a single
underscore allowed between two digits (Python numeric-literal rule). -/
def digitsUCont : List Char → List Char × List Char
  | [] => ([], [])
  | '_' :: [] => ([], ['_'])
  | '_' :: d :: rest =>
    if d.isDigit then
      let p := digitsUCont rest
      (d :: p.1, p.2)
    else ([], '_' :: d :: rest)
  | c :: rest =>
    if c.isDigit then
      let p := digitsUCont rest
      (c :: p.1, p.2)
    else ([], c :: rest)

/-- Take one digit group (it must start with a digit; underscores are only
legal between digits).  Returns the digits and the unconsumed rest. -/
def takeDigitsU : List Char → List Char × List Char
  | [] => ([], [])
  | c :: rest =>
    if c.isDigit then
      let p := digitsUCont rest
      (c :: p.1, p.2)
    else ([], c :: rest)

/-- The value of Python's `float(s)`: a finite number (modelled as an exact
rational), an infinity, or NaN. -/
inductive PyFloat where
  | finite (q : ℚ) : PyFloat
  | inf : PyFloat
  | negInf : PyFloat
  | nan : PyFloat
deriving DecidableEq

/-- The signed mantissa built from the integer and fraction digit groups. -/
def pyFloatMant (neg : Bool) (ip fp : List Char) : ℚ :=
  (if neg then (-1 : ℚ) else 1) *
    ((digitsVal ip : ℚ) + (digitsVal fp : ℚ) / ((10 : ℚ) ^ fp.length))

/-- The optional `e`/`E` exponent tail of a Python float literal, applied to
the mantissa of the digit groups `ip`/`fp`. -/
def pyFloatExp (neg : Bool) (ip fp : List Char) : List Char → Option PyFloat
  | [] => some (PyFloat.finite (pyFloatMant neg ip fp))
  | c :: rest =>
    if c == 'e' || c == 'E' then
      let eneg : Bool := match rest with
        | '-' :: _ => true
        | _ => false
      let rest2 : List Char := match rest with
        | '-' :: r => r
        | '+' :: r => r
        | _ => rest
      let epp := takeDigitsU rest2
      if epp.1.isEmpty || !epp.2.isEmpty then none
      else if eneg then
        some (PyFloat.finite (pyFloatMant neg ip fp / ((10 : ℚ) ^ digitsVal epp.1)))
      else
        some (PyFloat.finite (pyFloatMant neg ip fp * ((10 : ℚ) ^ digitsVal epp.1)))
    else none

/-- Python `float(s)`: optional surrounding whitespace, optional sign, then
either a case-insensitive `inf`/`infinity`/`nan` word or decimal digits
(single underscores between digits) with an optional fraction and an
optional exponent.  Finite literals are kept as exact rationals — IEEE-754
rounding and overflow-to-infinity of huge exponents are not modelled, nor
are non-ASCII decimal digits. -/
def pyFloat (s : String) : Option PyFloat :=
  let t := ((s.toList.dropWhile Char.isWhitespace).reverse.dropWhile Char.isWhitespace).reverse
  let neg : Bool := match t with
    | '-' :: _ => true
    | _ => false
  let t2 : List Char := match t with
    | '-' :: r => r
    | '+' :: r => r
    | _ => t
  let low := t2.map Char.toLower
  if low = ['i', 'n', 'f'] || low = ['i', 'n', 'f', 'i', 'n', 'i', 't', 'y'] then
    some (if neg then PyFloat.negInf else PyFloat.inf)
  else if low = ['n', 'a', 'n'] then
    some PyFloat.nan
  else
    let ipp := takeDigitsU t2
    match ipp.2 with
    | '.' :: rest1 =>
      let fpp := takeDigitsU rest1
      if ipp.1.isEmpty && fpp.1.isEmpty then none
      else pyFloatExp neg ipp.1 fpp.1 fpp.2
    | r1 =>
      if ipp.1.isEmpty then none
      else pyFloatExp neg ipp.1 [] r1

/-- Lines 127-131: `sleep_s = float(retry_after)`, with only `float`'s
`ValueError` caught and turned into the 2.0 fallback. -/
def retrySleepVal (r : HttpResponse) : PyFloat :=
  match pyFloat (retryAfterRaw r) with
  | some v => v
  | none => PyFloat.finite 2

/-- Can `time.sleep` (line 132, outside the try/except) accept this
duration?  CPython raises on a negative, infinite or NaN duration; in this
exact-rational model every non-negative finite duration is sleepable. -/
def sleepOk : PyFloat → Bool
  | .finite q => decide (0 ≤ q)
  | _ => false

/-- The duration actually slept when `sleepOk` holds. -/
def sleepSecs : PyFloat → ℚ
  | .finite q => q
  | _ => 0

/-- Why `send_to_discord` failed: a non-2xx response escalated by
`raise_for_status`, the uncaught exception `time.sleep` raises on a
negative (or non-finite) parsed Retry-After delay (line 132), or the
rate-limit retry bound exhausted (line 137). -/
inductive SendErr where
  | httpError (status : Nat) : SendErr
  | valueError : SendErr
  | retriesExhausted : SendErr
deriving DecidableEq

/-- Observable outcome of one `send_to_discord(item)` call: the result, the
sequence of `time.sleep` delays, and how many POSTs were issued. -/
structure SendOutcome where
  result : Except SendErr Unit
  sleeps : List ℚ
  posts : Nat

/-- The `for attempt in range(max_retries)` loop of lines 124-136: on 429,
parse the Retry-After delay, `time.sleep` it and retry — but when the
parsed delay is negative (or infinite/NaN), `time.sleep` itself raises
outside the try/except and the call dies right there, after this attempt's
single POST and with no sleep.  A non-429 response goes through
`raise_for_status` (an error for 4xx/5xx), then the polite `POST_SPACING`
sleep and success.  Falling off the loop raises (line 137). -/
def sendLoop (resp : Nat → HttpResponse) : Nat → Nat → List ℚ → SendOutcome
  | attempt, 0, sleeps => ⟨.error .retriesExhausted, sleeps, attempt⟩
  | attempt, fuel + 1, sleeps =>
    let r := resp attempt
    if r.status = 429 then
      let v := retrySleepVal r
      if sleepOk v then
        sendLoop resp (attempt + 1) fuel (sleeps ++ [sleepSecs v])
      else
        ⟨.error .valueError, sleeps, attempt + 1⟩
    else if 400 ≤ r.status ∧ r.status < 600 then
      ⟨.error (.httpError r.status), sleeps, attempt + 1⟩
    else
      ⟨.ok (), sleeps ++ [POST_SPACING], attempt + 1⟩

/-- `send_to_discord` (lines 111-137); `max_retries` defaults to 5 at the
call site. -/
def send_to_discord (resp : Nat → HttpResponse) (max_retries : Nat) : SendOutcome :=
  sendLoop resp 0 max_retries []

/-- Did the call return normally (no uncaught exception)? -/
def sendOk (o : SendOutcome) : Bool :=
  match o.result with
  | .ok _ => true
  | .error _ => false

/-- Mutable state of the posting loops of `run_once` (lines 153-174). -/
structure PostState where
  already : List Json
  posted : Nat
  attempted : List Item
  delivered : List Item
  failed : List Item

/-- Lines 163-170: try to send one item; on success add its url to `already`
and bump `posted`, on an exception log and move on. -/
def postItem (net : Item → Nat → HttpResponse) (st : PostState) (it : Item) : PostState :=
  if sendOk (send_to_discord (net it) 5) then
    { already := seenInsert st.already it.url, posted := st.posted + 1,
      attempted := st.attempted ++ [it], delivered := st.delivered ++ [it],
      failed := st.failed }
  else
    { st with attempted := st.attempted ++ [it], failed := st.failed ++ [it] }

/-- Lines 156-174 for one section: skip empty sections, post `to_post`
(which the code sets to all new items), then mark the (empty) `to_skip`
list as seen. -/
def postSection (net : Item → Nat → HttpResponse) (st : PostState)
    (p : String × List Item) : PostState :=
  if p.2.isEmpty then st
  else
    let to_post := p.2
    let to_skip : List Item := []
    let st1 := to_post.foldl (postItem net) st
    to_skip.foldl (fun s2 it => { s2 with already := seenInsert s2.already it.url }) st1

/-- The per-section posting loop of lines 156-174. -/
def postSections (net : Item → Nat → HttpResponse)
    (secs : List (String × List Item)) (st : PostState) : PostState :=
  secs.foldl (postSection net) st

/-- Line 148: the new items of one fetched section. -/
def newItemsFor (already : List Json) (section_name : String) (doc : List Anchor) : List Item :=
  (extract_items section_name doc).filter (fun it => !seenMem already it.url)

/-- Lines 146-151: fetch every configured section; a section whose fetch or
parse raises is logged and contributes no entry. -/
def collectNew (web : String → Except String (List Anchor))
    (already : List Json) : List (String × List Item) :=
  CHECK_PAGES.filterMap (fun p =>
    match web p.2 with
    | .error _ => none
    | .ok doc => some (p.1, newItemsFor already p.1 doc))

/-- Observable result of a completed `run_once`. -/
structure RunResult where
  posted : Nat
  attempted : List Item
  delivered : List Item
  failed : List Item
  initialSeen : List Json
  finalSeen : List Json
  savedSeen : List String
  seenCount : Nat

/-- The in-memory state after the whole posting phase of `run_once`
(lines 143-174), starting from the loaded seen set `already0`. -/
def runStateAfter (already0 : List Json) (web : String → Except String (List Anchor))
    (net : Item → Nat → HttpResponse) : PostState :=
  postSections net (collectNew web already0)
    { already := already0, posted := 0, attempted := [], delivered := [], failed := [] }

/-- `run_once` (lines 140-177).  `none` models the run dying on an uncaught
exception (non-object state document, non-iterable or — under the model
restriction documented above — non-string `"seen"` entries). -/
def run_once (fs : FileState) (web : String → Except String (List Anchor))
    (net : Item → Nat → HttpResponse) : Option RunResult :=
  match initialSeenOf fs with
  | none => none
  | some already0 =>
    let st := runStateAfter already0 web net
    match pySortedUrls st.already with
    | none => none
    | some sortedUrls =>
      some { posted := st.posted, attempted := st.attempted, delivered := st.delivered,
             failed := st.failed, initialSeen := already0, finalSeen := st.already,
             savedSeen := sortedUrls, seenCount := st.already.length }

/-- `save_state({"seen": sorted(list(already))})` (line 176): the JSON
document the run persists. -/
def savedJson (r : RunResult) : Json :=
  Json.obj [("seen", Json.arr (r.savedSeen.map Json.str))]

/-- The summary line printed at line 177. -/
def runSummary (r : RunResult) : String :=
  "[INFO] Done. Newly posted: " ++ Nat.repr r.posted ++ ". Total seen: " ++ Nat.repr r.seenCount

/-- Lines 16-18: `WEBHOOK_URL = os.environ.get("MAPLESEA_WEBHOOK_URL", "")`
followed by `raise RuntimeError` when it is falsy.  This runs at import
time, before `run_once` (line 181) and hence before any fetch or state
write. -/
def notifier_main (env : String → Option String) (fs : FileState)
    (web : String → Except String (List Anchor))
    (net : Item → Nat → HttpResponse) : Except String (Option RunResult) :=
  let webhook := (env "MAPLESEA_WEBHOOK_URL").getD ""
  if webhook = "" then .error "Missing MAPLESEA_WEBHOOK_URL env var"
  else .ok (run_once fs web net)

/-! ### Concrete scenarios used by witnesses and counterexamples -/

/-- A fallback record for projecting out of `Option RunResult`. -/
def junkRun : RunResult :=
  { posted := 0, attempted := [], delivered := [], failed := [], initialSeen := [],
    finalSeen := [], savedSeen := [], seenCount := 0 }

/-- An Updates-page anchor for item number `i + 1`. -/
def demoAnchor (i : Nat) : Anchor :=
  { href := some ("/updates/view/" ++ Nat.repr (i + 1)),
    text := "Patch " ++ Nat.repr (i + 1), parentText := none }

/-- Sixteen distinct new Updates items — one more than the configured cap. -/
def demoAnchors : List Anchor := (List.range 16).map demoAnchor

/-- A web oracle where the Updates page has sixteen items and every other
page fails to fetch. -/
def webUpdates16 : String → Except String (List Anchor) :=
  fun u => if u = "https://www.maplesea.com/updates" then .ok demoAnchors else .error "down"

/-- A web oracle where every page fails to fetch. -/
def webAllDown : String → Except String (List Anchor) := fun _ => .error "down"

/-- A webhook that accepts every POST. -/
def netOK : Item → Nat → HttpResponse :=
  fun _ _ => { status := 204, headers := fun _ => none }

/-- A webhook response stream that is rate-limited on every attempt, with no
Retry-After hint. -/
def net429 : Nat → HttpResponse := fun _ => { status := 429, headers := fun _ => none }

/-- A webhook response stream that is rate-limited on every attempt and
supplies the hostile hint `Retry-After: -1`. -/
def net429neg : Nat → HttpResponse :=
  fun _ => { status := 429,
             headers := fun k => if k = "Retry-After" then some "-1" else none }

/-- A webhook response stream whose first response is a permanent error. -/
def net500 : Nat → HttpResponse := fun _ => { status := 500, headers := fun _ => none }

/-- An anchor whose target is a relative path without a leading slash. -/
def relAnchor : Anchor := { href := some "./updates/view/5", text := "T", parentText := none }

/-- A News-page anchor used by the isolation scenario. -/
def newsAnchor : Anchor := { href := some "/news/view/42", text := "Hello", parentText := none }

/-- The item extracted from `newsAnchor`. -/
def newsItem : Item :=
  { sectionName := "News", title := "Hello",
    url := "https://www.maplesea.com/news/view/42", date_hint := "" }

/-- A web oracle where only the News page is reachable. -/
def webNewsOnly : String → Except String (List Anchor) :=
  fun u => if u = "https://www.maplesea.com/news" then .ok [newsAnchor] else .error "down"

/-- An environment carrying the webhook secret. -/
def envOK : String → Option String :=
  fun k => if k = "MAPLESEA_WEBHOOK_URL" then some "https://discord.example/webhook" else none

/-- A state file already containing the url "a". -/
def fsSeedA : FileState := FileState.wellFormed (Json.obj [("seen", Json.arr [Json.str "a"])])

/-! ### Helper lemmas: strings, seen sets -/

theorem strListContains_iff (l : List String) (u : String) : l.contains u = true ↔ u ∈ l :=
  List.elem_iff

theorem jsonStrEq_iff (e : Json) (u : String) : jsonStrEq e u = true ↔ e = Json.str u := by
  cases e <;> simp [jsonStrEq]

theorem seenMem_iff (l : List Json) (u : String) : seenMem l u = true ↔ Json.str u ∈ l := by
  simp only [seenMem, List.any_eq_true, jsonStrEq_iff]
  constructor
  · rintro ⟨e, he, rfl⟩; exact he
  · intro h; exact ⟨Json.str u, h, rfl⟩

theorem seenMem_eq_false_iff (l : List Json) (u : String) :
    seenMem l u = false ↔ Json.str u ∉ l := by
  rw [← seenMem_iff]
  cases h : seenMem l u <;> simp [h]

theorem mem_seenInsert (l : List Json) (u : String) (j : Json) :
    j ∈ seenInsert l u ↔ j ∈ l ∨ j = Json.str u := by
  unfold seenInsert
  by_cases h : seenMem l u = true
  · rw [if_pos h]
    rw [seenMem_iff] at h
    constructor
    · exact Or.inl
    · rintro (hj | rfl)
      · exact hj
      · exact h
  · rw [if_neg h]; simp

theorem sublist_seenInsert (l : List Json) (u : String) : l.Sublist (seenInsert l u) := by
  unfold seenInsert
  by_cases h : seenMem l u = true
  · rw [if_pos h]
  · rw [if_neg h]; exact List.sublist_append_left l [Json.str u]

/-! ### Helper lemmas: the extractor -/

theorem dedupeByUrl_sublist (l : List Item) :
    ∀ seen_urls, (dedupeByUrl seen_urls l).Sublist l := by
  induction l with
  | nil => intro s; simp [dedupeByUrl]
  | cons it rest ih =>
    intro s
    unfold dedupeByUrl
    by_cases h : s.contains it.url = true
    · rw [if_pos h]; exact (ih s).cons it
    · rw [if_neg h]; exact (ih (it.url :: s)).cons₂ it

theorem mem_dedupeByUrl_url_fresh (l : List Item) :
    ∀ seen_urls it, it ∈ dedupeByUrl seen_urls l → it.url ∉ seen_urls := by
  induction l with
  | nil => intro s it h; simp [dedupeByUrl] at h
  | cons x rest ih =>
    intro s it h
    unfold dedupeByUrl at h
    by_cases hc : s.contains x.url = true
    · rw [if_pos hc] at h; exact ih s it h
    · rw [if_neg hc] at h
      rcases List.mem_cons.mp h with rfl | h2
      · intro hmem
        exact hc ((strListContains_iff s it.url).mpr hmem)
      · intro hmem
        exact ih (x.url :: s) it h2 (List.mem_cons_of_mem _ hmem)

theorem dedupeByUrl_nodup (l : List Item) :
    ∀ seen_urls, ((dedupeByUrl seen_urls l).map Item.url).Nodup := by
  induction l with
  | nil => intro s; simp [dedupeByUrl]
  | cons x rest ih =>
    intro s
    unfold dedupeByUrl
    by_cases hc : s.contains x.url = true
    · rw [if_pos hc]; exact ih s
    · rw [if_neg hc]
      simp only [List.map_cons, List.nodup_cons]
      refine ⟨?_, ih (x.url :: s)⟩
      intro hmem
      rcases List.mem_map.mp hmem with ⟨it, hit, hurl⟩
      exact mem_dedupeByUrl_url_fresh rest (x.url :: s) it hit (hurl ▸ List.mem_cons_self _ _)

theorem dedupeByUrl_complete (l : List Item) :
    ∀ seen_urls it, it ∈ l → it.url ∉ seen_urls →
      it.url ∈ (dedupeByUrl seen_urls l).map Item.url := by
  induction l with
  | nil => intro s it h; simp at h
  | cons x rest ih =>
    intro s it hmem hfresh
    unfold dedupeByUrl
    by_cases hc : s.contains x.url = true
    · rw [if_pos hc]
      rcases List.mem_cons.mp hmem with rfl | h2
      · exact absurd ((strListContains_iff s it.url).mp hc) hfresh
      · exact ih s it h2 hfresh
    · rw [if_neg hc]
      by_cases hx : it.url = x.url
      · simp [hx]
      · simp only [List.map_cons, List.mem_cons]
        refine Or.inr (ih (x.url :: s) it ?_ ?_)
        · rcases List.mem_cons.mp hmem with rfl | h2
          · exact absurd rfl hx
          · exact h2
        · intro hin
          rcases List.mem_cons.mp hin with h1 | h2
          · exact hx h1
          · exact hfresh h2

theorem dedupeByUrl_first (l : List Item) :
    ∀ seen_urls it, it ∈ dedupeByUrl seen_urls l →
      l.find? (fun j => j.url == it.url) = some it := by
  induction l with
  | nil => intro s it h; simp [dedupeByUrl] at h
  | cons x rest ih =>
    intro s it h
    unfold dedupeByUrl at h
    by_cases hc : s.contains x.url = true
    · rw [if_pos hc] at h
      have hfresh := mem_dedupeByUrl_url_fresh rest s it h
      have hne : x.url ≠ it.url := by
        intro he
        exact hfresh (he ▸ (strListContains_iff s x.url).mp hc)
      rw [List.find?_cons_of_neg, ih s it h]
      simp [hne]
    · rw [if_neg hc] at h
      rcases List.mem_cons.mp h with rfl | h2
      · rw [List.find?_cons_of_pos]; simp
      · have hfresh := mem_dedupeByUrl_url_fresh rest (x.url :: s) it h2
        have hne : x.url ≠ it.url := by
          intro he
          exact hfresh (he ▸ List.mem_cons_self _ _)
        rw [List.find?_cons_of_neg, ih (x.url :: s) it h2]
        simp [hne]

theorem mem_extract_mem_pre (s : String) (doc : List Anchor) (it : Item)
    (h : it ∈ extract_items s doc) : it ∈ itemsPre s doc :=
  (dedupeByUrl_sublist (itemsPre s doc) []).mem h

theorem mem_itemsPre_elim (s : String) (doc : List Anchor) (it : Item)
    (h : it ∈ itemsPre s doc) :
    ∃ a, a ∈ doc ∧ matchesSelector a = true ∧ anchorToItem s a = some it := by
  unfold itemsPre at h
  rcases List.mem_filterMap.mp h with ⟨a, ha, hmk⟩
  rcases List.mem_filter.mp ha with ⟨had, hsel⟩
  exact ⟨a, had, hsel, hmk⟩

theorem anchorToItem_fields (s : String) (a : Anchor) (it : Item)
    (h : anchorToItem s a = some it) :
    it.sectionName = s ∧ it.url = resolveHref (pyStrip ((a.href).getD "")) := by
  unfold anchorToItem at h
  by_cases hcond : (pyStrip ((a.href).getD "") = "" || a.text = "") = true
  · rw [if_pos hcond] at h; cases h
  · rw [if_neg hcond] at h
    cases h
    exact ⟨rfl, rfl⟩

/-- C2: the extractor returns the matching link items of the page in
document order, with duplicate urls collapsed to the first occurrence, and
anchors with empty (stripped) href or empty rendered text produce no item. -/
theorem C2_extractor_contract (s : String) (doc : List Anchor) :
    ((extract_items s doc).map Item.url).Nodup ∧
    (extract_items s doc).Sublist (itemsPre s doc) ∧
    (∀ it ∈ itemsPre s doc, it.url ∈ (extract_items s doc).map Item.url) ∧
    (∀ it ∈ extract_items s doc, (itemsPre s doc).find? (fun j => j.url == it.url) = some it) ∧
    (∀ a ∈ doc, (pyStrip ((a.href).getD "") = "" ∨ a.text = "") → anchorToItem s a = none) := by
  refine ⟨dedupeByUrl_nodup _ [], dedupeByUrl_sublist _ [], ?_, ?_, ?_⟩
  · intro it hit
    exact dedupeByUrl_complete _ [] it hit (List.not_mem_nil _)
  · intro it hit
    exact dedupeByUrl_first _ [] it hit
  · intro a _ hempty
    unfold anchorToItem
    rcases hempty with h | h <;> simp [h]

/-- C2 witness: a duplicated url collapses and empty anchors vanish on a
concrete page. -/
theorem C2_extractor_contract_witness :
    ((extract_items "Updates"
        [{ href := some "/updates/view/1", text := "A", parentText := none },
         { href := some "/updates/view/1", text := "B", parentText := none },
         { href := some "/updates/view/2", text := "", parentText := none }]).map Item.url).Nodup :=
  (C2_extractor_contract "Updates"
    [{ href := some "/updates/view/1", text := "A", parentText := none },
     { href := some "/updates/view/1", text := "B", parentText := none },
     { href := some "/updates/view/2", text := "", parentText := none }]).1

/-- C3 counterexample: an anchor whose target is the relative path
`./updates/view/5` (matching the selector, without a leading slash) is kept
verbatim — the extractor does NOT resolve it against the site origin, so
the produced identity key is not an absolute url. -/
theorem C3_relative_counterexample :
    (extract_items "Updates" [relAnchor]).map Item.url = ["./updates/view/5"] ∧
    pyStarts "./updates/view/5" "https://www.maplesea.com" = false ∧
    pyStarts "./updates/view/5" "/" = false := by decide

/-- C3 (amended): every extracted item's identity key is exactly the
stripped href of some page anchor passed through `resolveHref`, which
prepends the fixed origin when the target starts with `/` and otherwise
uses the target verbatim; in both cases no further normalization (no
trailing-slash or query stripping) is applied. -/
theorem C3_url_resolution (s : String) (doc : List Anchor) :
    (∀ it ∈ extract_items s doc,
      ∃ a, a ∈ doc ∧ it.url = resolveHref (pyStrip ((a.href).getD ""))) ∧
    (∀ h, pyStarts h "/" = true → resolveHref h = ORIGIN ++ h) ∧
    (∀ h, pyStarts h "/" = false → resolveHref h = h) := by
  refine ⟨?_, ?_, ?_⟩
  · intro it hit
    rcases mem_itemsPre_elim s doc it (mem_extract_mem_pre s doc it hit) with ⟨a, ha, _, hmk⟩
    exact ⟨a, ha, (anchorToItem_fields s a it hmk).2⟩
  · intro h hp; simp [resolveHref, hp]
  · intro h hp; simp [resolveHref, hp]

/-- C3 witness: a root-relative href is resolved by prepending the origin. -/
theorem C3_url_resolution_witness :
    ∃ a, a ∈ [newsAnchor] ∧
      newsItem.url = resolveHref (pyStrip ((a.href).getD "")) :=
  (C3_url_resolution "News" [newsAnchor]).1 newsItem (by decide)

/-! ### Helper lemmas: the sink client -/

theorem pyFloat_two : pyFloat "2" = some (PyFloat.finite 2) := by
  have h : pyFloat "2" = some (PyFloat.finite
      ((1 : ℚ) * (((2 : Nat) : ℚ) + ((0 : Nat) : ℚ) / ((10 : ℚ) ^ (0 : Nat))))) := rfl
  rw [h]; norm_num

theorem pyFloat_exponent : pyFloat "1e1" = some (PyFloat.finite 10) := by
  have h : pyFloat "1e1" = some (PyFloat.finite
      (((1 : ℚ) * (((1 : Nat) : ℚ) + ((0 : Nat) : ℚ) / ((10 : ℚ) ^ (0 : Nat)))) *
        ((10 : ℚ) ^ (1 : Nat)))) := rfl
  rw [h]; norm_num

theorem pyFloat_underscore : pyFloat "1_0" = some (PyFloat.finite 10) := by
  have h : pyFloat "1_0" = some (PyFloat.finite
      ((1 : ℚ) * (((10 : Nat) : ℚ) + ((0 : Nat) : ℚ) / ((10 : ℚ) ^ (0 : Nat))))) := rfl
  rw [h]; norm_num

theorem pyFloat_neg_one : pyFloat "-1" = some (PyFloat.finite (-1)) := by
  have h : pyFloat "-1" = some (PyFloat.finite
      ((-1 : ℚ) * (((1 : Nat) : ℚ) + ((0 : Nat) : ℚ) / ((10 : ℚ) ^ (0 : Nat))))) := rfl
  rw [h]; norm_num

theorem pyFloat_infinity : pyFloat "-Infinity" = some PyFloat.negInf := rfl

theorem retrySleep_absent (r : HttpResponse) (h1 : r.headers "Retry-After" = none)
    (h2 : r.headers "retry-after" = none) : retrySleepVal r = PyFloat.finite 2 := by
  unfold retrySleepVal retryAfterRaw
  rw [h1, h2]
  simp [pyOrStr, pyFloat_two]

theorem retrySleep_unparsable (r : HttpResponse)
    (h : pyFloat (retryAfterRaw r) = none) : retrySleepVal r = PyFloat.finite 2 := by
  unfold retrySleepVal
  rw [h]

theorem sleepOk_two : sleepOk (PyFloat.finite 2) = true := by
  norm_num [sleepOk]

theorem send_immediate_error (resp : Nat → HttpResponse) (h429 : ¬(resp 0).status = 429)
    (hlo : 400 ≤ (resp 0).status) (hhi : (resp 0).status < 600) :
    send_to_discord resp 5 = ⟨.error (.httpError ((resp 0).status)), [], 1⟩ := by
  show sendLoop resp 0 (4 + 1) [] = _
  rw [sendLoop]
  rw [if_neg h429, if_pos (And.intro hlo hhi)]

theorem send_crash_first (resp : Nat → HttpResponse) (h429 : (resp 0).status = 429)
    (hbad : sleepOk (retrySleepVal (resp 0)) = false) :
    send_to_discord resp 5 = ⟨Except.error SendErr.valueError, [], 1⟩ := by
  show sendLoop resp 0 (4 + 1) [] = _
  rw [sendLoop]
  simp [h429, hbad]

/-- C4 counterexample: an all-429 stream whose Retry-After hint parses to
the negative delay -1.  The claim says the client sleeps the parsed delay
and retries up to the five-attempt bound; instead `time.sleep(-1.0)` raises
outside the try/except, so the call dies after a single POST with no sleep
and no retry. -/
theorem C4_negative_retry_after_counterexample :
    send_to_discord net429neg 5 = ⟨Except.error SendErr.valueError, [], 1⟩ ∧
    (net429neg 0).status = 429 ∧
    pyFloat (retryAfterRaw (net429neg 0)) = some (PyFloat.finite (-1)) := by
  have hraw : retryAfterRaw (net429neg 0) = "-1" := rfl
  have hv : retrySleepVal (net429neg 0) = PyFloat.finite (-1) := by
    unfold retrySleepVal
    rw [hraw, pyFloat_neg_one]
  have hbad : sleepOk (retrySleepVal (net429neg 0)) = false := by
    rw [hv]; norm_num [sleepOk]
  refine ⟨send_crash_first net429neg rfl hbad, rfl, ?_⟩
  rw [hraw, pyFloat_neg_one]

/-- C4 (amended): on a 429 the client parses the Retry-After hint with
Python float syntax, falling back to 2 seconds when the hint is absent or
unparsable; whenever each parsed delay is a valid (non-negative finite)
sleep duration, the client sleeps it and retries, and five rate-limited
attempts exhaust the bound, a hard failure for the item.  When the parsed
delay is negative (or infinite/NaN), the sleep itself raises outside the
try/except and the call fails immediately after that attempt's single POST
— also a per-item failure, but with no sleep and no retry. -/
theorem C4_rate_limit_retry (resp : Nat → HttpResponse)
    (h : ∀ i, i < 5 → (resp i).status = 429)
    (hok : ∀ i, i < 5 → sleepOk (retrySleepVal (resp i)) = true) :
    ((send_to_discord resp 5).result = Except.error SendErr.retriesExhausted ∧
     (send_to_discord resp 5).posts = 5 ∧
     (send_to_discord resp 5).sleeps =
       [sleepSecs (retrySleepVal (resp 0)), sleepSecs (retrySleepVal (resp 1)),
        sleepSecs (retrySleepVal (resp 2)), sleepSecs (retrySleepVal (resp 3)),
        sleepSecs (retrySleepVal (resp 4))]) ∧
    (∀ r : HttpResponse, r.headers "Retry-After" = none → r.headers "retry-after" = none →
      retrySleepVal r = PyFloat.finite 2) ∧
    (∀ r : HttpResponse, pyFloat (retryAfterRaw r) = none →
      retrySleepVal r = PyFloat.finite 2) ∧
    (∀ resp2 : Nat → HttpResponse, (resp2 0).status = 429 →
      sleepOk (retrySleepVal (resp2 0)) = false →
      send_to_discord resp2 5 = ⟨Except.error SendErr.valueError, [], 1⟩) := by
  have e0 := h 0 (by omega)
  have e1 := h 1 (by omega)
  have e2 := h 2 (by omega)
  have e3 := h 3 (by omega)
  have e4 := h 4 (by omega)
  have k0 := hok 0 (by omega)
  have k1 := hok 1 (by omega)
  have k2 := hok 2 (by omega)
  have k3 := hok 3 (by omega)
  have k4 := hok 4 (by omega)
  have hs : send_to_discord resp 5 =
      ⟨Except.error SendErr.retriesExhausted,
       [sleepSecs (retrySleepVal (resp 0)), sleepSecs (retrySleepVal (resp 1)),
        sleepSecs (retrySleepVal (resp 2)), sleepSecs (retrySleepVal (resp 3)),
        sleepSecs (retrySleepVal (resp 4))], 5⟩ := by
    unfold send_to_discord
    simp [sendLoop, e0, e1, e2, e3, e4, k0, k1, k2, k3, k4]
  refine ⟨⟨?_, ?_, ?_⟩, retrySleep_absent, retrySleep_unparsable, send_crash_first⟩ <;>
    rw [hs]

/-- C4 witness: hint-less all-429 responses sleep the 2-second fallback five
times and exhaust the bound; the same stream with a `-1` hint dies on the
first sleep. -/
theorem C4_rate_limit_retry_witness :
    (send_to_discord net429 5).result = Except.error SendErr.retriesExhausted ∧
    (send_to_discord net429 5).posts = 5 ∧
    retrySleepVal (net429 0) = PyFloat.finite 2 ∧
    send_to_discord net429neg 5 = ⟨Except.error SendErr.valueError, [], 1⟩ := by
  have hok : ∀ i, i < 5 → sleepOk (retrySleepVal (net429 i)) = true := by
    intro i _
    rw [retrySleep_absent (net429 i) rfl rfl]
    exact sleepOk_two
  have h := C4_rate_limit_retry net429 (fun i _ => rfl) hok
  refine ⟨h.1.1, h.1.2.1, h.2.1 (net429 0) rfl rfl, ?_⟩
  refine h.2.2.2 net429neg rfl ?_
  have hv : retrySleepVal (net429neg 0) = PyFloat.finite (-1) := by
    unfold retrySleepVal
    rw [show retryAfterRaw (net429neg 0) = "-1" from rfl, pyFloat_neg_one]
  rw [hv]
  norm_num [sleepOk]

/-! ### Helper lemmas: the posting loops -/

theorem foldPost_attempted (net : Item → Nat → HttpResponse) (items : List Item) :
    ∀ st : PostState, (items.foldl (postItem net) st).attempted = st.attempted ++ items := by
  induction items with
  | nil => intro st; simp
  | cons it rest ih =>
    intro st
    rw [List.foldl_cons, ih]
    unfold postItem
    by_cases h : sendOk (send_to_discord (net it) 5) = true
    · rw [if_pos h]; simp
    · rw [if_neg h]; simp

theorem foldPost_delivered (net : Item → Nat → HttpResponse) (items : List Item) :
    ∀ st : PostState, (items.foldl (postItem net) st).delivered
      = st.delivered ++ items.filter (fun it => sendOk (send_to_discord (net it) 5)) := by
  induction items with
  | nil => intro st; simp
  | cons it rest ih =>
    intro st
    rw [List.foldl_cons, ih]
    unfold postItem
    by_cases h : sendOk (send_to_discord (net it) 5) = true
    · rw [if_pos h]; simp [List.filter_cons, h]
    · rw [if_neg h]; simp [List.filter_cons, h]

theorem foldPost_failed (net : Item → Nat → HttpResponse) (items : List Item) :
    ∀ st : PostState, (items.foldl (postItem net) st).failed
      = st.failed ++ items.filter (fun it => !sendOk (send_to_discord (net it) 5)) := by
  induction items with
  | nil => intro st; simp
  | cons it rest ih =>
    intro st
    rw [List.foldl_cons, ih]
    unfold postItem
    by_cases h : sendOk (send_to_discord (net it) 5) = true
    · rw [if_pos h]; simp [List.filter_cons, h]
    · rw [if_neg h]; simp [List.filter_cons, h]

theorem foldPost_already_sublist (net : Item → Nat → HttpResponse) (items : List Item) :
    ∀ st : PostState, st.already.Sublist ((items.foldl (postItem net) st).already) := by
  induction items with
  | nil => intro st; simp
  | cons it rest ih =>
    intro st
    rw [List.foldl_cons]
    refine List.Sublist.trans ?_ (ih (postItem net st it))
    unfold postItem
    by_cases h : sendOk (send_to_discord (net it) 5) = true
    · rw [if_pos h]; exact sublist_seenInsert _ _
    · rw [if_neg h]

theorem foldPost_mem_already (net : Item → Nat → HttpResponse) (items : List Item) :
    ∀ (st : PostState) (j : Json), j ∈ (items.foldl (postItem net) st).already ↔
      j ∈ st.already ∨ ∃ it, it ∈ items ∧
        sendOk (send_to_discord (net it) 5) = true ∧ j = Json.str it.url := by
  induction items with
  | nil => intro st j; simp
  | cons x rest ih =>
    intro st j
    rw [List.foldl_cons, ih]
    unfold postItem
    by_cases h : sendOk (send_to_discord (net x) 5) = true
    · rw [if_pos h]
      simp only [mem_seenInsert, List.mem_cons, h]
      constructor
      · rintro ((hj | rfl) | ⟨it, hit, hok, rfl⟩)
        · exact Or.inl hj
        · exact Or.inr ⟨x, Or.inl rfl, h, rfl⟩
        · exact Or.inr ⟨it, Or.inr hit, hok, rfl⟩
      · rintro (hj | ⟨it, (rfl | hit), hok, rfl⟩)
        · exact Or.inl (Or.inl hj)
        · exact Or.inl (Or.inr rfl)
        · exact Or.inr ⟨it, hit, hok, rfl⟩
    · rw [if_neg h]
      simp only [List.mem_cons]
      constructor
      · rintro (hj | ⟨it, hit, hok, rfl⟩)
        · exact Or.inl hj
        · exact Or.inr ⟨it, Or.inr hit, hok, rfl⟩
      · rintro (hj | ⟨it, (rfl | hit), hok, rfl⟩)
        · exact Or.inl hj
        · exact absurd hok h
        · exact Or.inr ⟨it, hit, hok, rfl⟩

theorem postSection_eq (net : Item → Nat → HttpResponse) (st : PostState)
    (p : String × List Item) : postSection net st p = p.2.foldl (postItem net) st := by
  unfold postSection
  by_cases h : p.2.isEmpty = true
  · rw [if_pos h, List.isEmpty_iff.mp h]; rfl
  · rw [if_neg h]; rfl

theorem sections_attempted (net : Item → Nat → HttpResponse)
    (secs : List (String × List Item)) :
    ∀ st : PostState, (postSections net secs st).attempted
      = st.attempted ++ secs.flatMap (fun p => p.2) := by
  induction secs with
  | nil => intro st; simp [postSections]
  | cons q rest ih =>
    intro st
    show (postSections net rest (postSection net st q)).attempted = _
    rw [ih, postSection_eq, foldPost_attempted]
    simp

theorem sections_delivered (net : Item → Nat → HttpResponse)
    (secs : List (String × List Item)) :
    ∀ st : PostState, (postSections net secs st).delivered
      = st.delivered ++ (secs.flatMap (fun p => p.2)).filter
          (fun it => sendOk (send_to_discord (net it) 5)) := by
  induction secs with
  | nil => intro st; simp [postSections]
  | cons q rest ih =>
    intro st
    show (postSections net rest (postSection net st q)).delivered = _
    rw [ih, postSection_eq, foldPost_delivered]
    simp [List.filter_append]

theorem sections_failed (net : Item → Nat → HttpResponse)
    (secs : List (String × List Item)) :
    ∀ st : PostState, (postSections net secs st).failed
      = st.failed ++ (secs.flatMap (fun p => p.2)).filter
          (fun it => !sendOk (send_to_discord (net it) 5)) := by
  induction secs with
  | nil => intro st; simp [postSections]
  | cons q rest ih =>
    intro st
    show (postSections net rest (postSection net st q)).failed = _
    rw [ih, postSection_eq, foldPost_failed]
    simp [List.filter_append]

theorem sections_already_sublist (net : Item → Nat → HttpResponse)
    (secs : List (String × List Item)) :
    ∀ st : PostState, st.already.Sublist ((postSections net secs st).already) := by
  induction secs with
  | nil => intro st; simp [postSections]
  | cons q rest ih =>
    intro st
    show st.already.Sublist ((postSections net rest (postSection net st q)).already)
    refine List.Sublist.trans ?_ (ih (postSection net st q))
    rw [postSection_eq]
    exact foldPost_already_sublist net q.2 st

theorem sections_mem_already (net : Item → Nat → HttpResponse)
    (secs : List (String × List Item)) :
    ∀ (st : PostState) (j : Json), j ∈ (postSections net secs st).already ↔
      j ∈ st.already ∨ ∃ it, it ∈ secs.flatMap (fun p => p.2) ∧
        sendOk (send_to_discord (net it) 5) = true ∧ j = Json.str it.url := by
  induction secs with
  | nil => intro st j; simp [postSections]
  | cons q rest ih =>
    intro st j
    show j ∈ (postSections net rest (postSection net st q)).already ↔ _
    rw [ih, postSection_eq, foldPost_mem_already]
    simp only [List.flatMap_cons, List.mem_append]
    constructor
    · rintro ((hj | ⟨it, hit, hok, rfl⟩) | ⟨it, hit, hok, rfl⟩)
      · exact Or.inl hj
      · exact Or.inr ⟨it, Or.inl hit, hok, rfl⟩
      · exact Or.inr ⟨it, Or.inr hit, hok, rfl⟩
    · rintro (hj | ⟨it, (hit | hit), hok, rfl⟩)
      · exact Or.inl (Or.inl hj)
      · exact Or.inl (Or.inr ⟨it, hit, hok, rfl⟩)
      · exact Or.inr ⟨it, hit, hok, rfl⟩

/-! ### Helper lemmas: run_once inversion -/

theorem run_once_elim (fs : FileState) (web : String → Except String (List Anchor))
    (net : Item → Nat → HttpResponse) (r : RunResult)
    (h : run_once fs web net = some r) :
    initialSeenOf fs = some r.initialSeen ∧
    r.finalSeen = (runStateAfter r.initialSeen web net).already ∧
    r.attempted = (runStateAfter r.initialSeen web net).attempted ∧
    r.delivered = (runStateAfter r.initialSeen web net).delivered ∧
    r.failed = (runStateAfter r.initialSeen web net).failed ∧
    r.posted = (runStateAfter r.initialSeen web net).posted ∧
    pySortedUrls r.finalSeen = some r.savedSeen := by
  unfold run_once at h
  cases h0 : initialSeenOf fs with
  | none => rw [h0] at h; cases h
  | some a0 =>
    rw [h0] at h
    dsimp only at h
    cases h1 : pySortedUrls (runStateAfter a0 web net).already with
    | none => rw [h1] at h; cases h
    | some sortedUrls =>
      rw [h1] at h
      dsimp only at h
      injection h with h2
      subst h2
      exact ⟨rfl, rfl, rfl, rfl, rfl, rfl, h1⟩

/-! ### Helper lemmas: the sorted save and collectNew -/

theorem mem_insertSorted (s u : String) (l : List String) :
    u ∈ insertSorted s l ↔ u = s ∨ u ∈ l := by
  induction l with
  | nil => simp [insertSorted]
  | cons x rest ih =>
    unfold insertSorted
    by_cases h : strLeB s.toList x.toList = true
    · rw [if_pos h]; simp
    · rw [if_neg h]
      simp only [List.mem_cons, ih]
      tauto

theorem mem_pySorted (l : List String) (u : String) : u ∈ pySorted l ↔ u ∈ l := by
  induction l with
  | nil => simp [pySorted]
  | cons x rest ih =>
    show u ∈ insertSorted x (pySorted rest) ↔ _
    rw [mem_insertSorted, ih]
    simp

theorem allStrings_mem (l : List Json) :
    ∀ strs, allStrings l = some strs → ∀ u, (u ∈ strs ↔ Json.str u ∈ l) := by
  induction l with
  | nil =>
    intro strs h u
    injection h with h2
    subst h2
    simp
  | cons j rest ih =>
    intro strs h u
    cases j with
    | str s =>
      unfold allStrings at h
      cases hr : allStrings rest with
      | none => rw [hr] at h; cases h
      | some l2 =>
        rw [hr] at h
        injection h with h2
        subst h2
        simp [List.mem_cons, ih l2 hr u]
    | null => cases h
    | bool b => cases h
    | num n => cases h
    | arr es => cases h
    | obj fields => cases h

theorem allStrings_of_forall (l : List Json) (h : ∀ j ∈ l, ∃ s, j = Json.str s) :
    ∃ strs, allStrings l = some strs := by
  induction l with
  | nil => exact ⟨[], rfl⟩
  | cons j rest ih =>
    rcases h j (List.mem_cons_self _ _) with ⟨s, rfl⟩
    rcases ih (fun j2 hj2 => h j2 (List.mem_cons_of_mem _ hj2)) with ⟨strs, hs⟩
    refine ⟨s :: strs, ?_⟩
    unfold allStrings
    rw [hs]

theorem pySortedUrls_mem (l : List Json) (strs : List String)
    (h : pySortedUrls l = some strs) (u : String) : u ∈ strs ↔ Json.str u ∈ l := by
  unfold pySortedUrls at h
  cases ha : allStrings l with
  | none => rw [ha] at h; cases h
  | some strs0 =>
    rw [ha] at h
    injection h with h2
    subst h2
    rw [mem_pySorted]
    exact allStrings_mem l strs0 ha u

theorem mem_collectNew_intro (web : String → Except String (List Anchor))
    (already : List Json) (s2 u2 : String) (doc : List Anchor)
    (hmem : (s2, u2) ∈ CHECK_PAGES) (hweb : web u2 = .ok doc) :
    (s2, newItemsFor already s2 doc) ∈ collectNew web already := by
  unfold collectNew
  refine List.mem_filterMap.mpr ⟨(s2, u2), hmem, ?_⟩
  show (match web u2 with
    | .error _ => none
    | .ok d => some (s2, newItemsFor already s2 d)) = _
  rw [hweb]

theorem mem_collectNew_elim (web : String → Except String (List Anchor))
    (already : List Json) (q : String × List Item) (h : q ∈ collectNew web already) :
    ∃ p, p ∈ CHECK_PAGES ∧ ∃ doc, web p.2 = .ok doc ∧
      q = (p.1, newItemsFor already p.1 doc) := by
  unfold collectNew at h
  rcases List.mem_filterMap.mp h with ⟨p, hp, hq⟩
  cases hw : web p.2 with
  | error e => rw [hw] at hq; cases hq
  | ok doc =>
    rw [hw] at hq
    injection hq with h2
    exact ⟨p, hp, doc, hw, h2.symm⟩

theorem mem_extract_sectionName (s : String) (doc : List Anchor) (it : Item)
    (h : it ∈ extract_items s doc) : it.sectionName = s := by
  rcases mem_itemsPre_elim s doc it (mem_extract_mem_pre s doc it h) with ⟨a, _, _, hmk⟩
  exact (anchorToItem_fields s a it hmk).1

theorem CHECK_PAGES_url_unique (s u u2 : String) (h1 : (s, u) ∈ CHECK_PAGES)
    (h2 : (s, u2) ∈ CHECK_PAGES) : u = u2 := by
  have hd : CHECK_PAGES.Nodup := by decide
  have hn : (CHECK_PAGES.map Prod.fst).Nodup := by decide
  have he := (List.nodup_map_iff_inj_on hd).mp hn (s, u) h1 (s, u2) h2 rfl
  exact congrArg Prod.snd he

/-! ### Claims about run_once -/

/-- C5: a non-429 error response fails the delivery immediately — a single
POST, no retry, no sleeps — and a url is in the persisted seen set exactly
when it was already loaded as seen or some item carrying it was delivered
successfully this run; in particular a failed item's url (not otherwise
seen or delivered) is absent and stays eligible for the next run. -/
theorem C5_permanent_error_handling :
    (∀ resp : Nat → HttpResponse, ¬(resp 0).status = 429 → 400 ≤ (resp 0).status →
      (resp 0).status < 600 →
      send_to_discord resp 5 = ⟨.error (.httpError ((resp 0).status)), [], 1⟩) ∧
    (∀ fs web net r, run_once fs web net = some r →
      ∀ u : String, u ∈ r.savedSeen ↔
        (seenMem r.initialSeen u = true ∨ u ∈ r.delivered.map Item.url)) := by
  refine ⟨send_immediate_error, ?_⟩
  intro fs web net r h u
  obtain ⟨h0, hfin, hatt, hdel, hfail, hpost, hsort⟩ := run_once_elim fs web net r h
  rw [pySortedUrls_mem r.finalSeen r.savedSeen hsort u, hfin]
  unfold runStateAfter
  rw [sections_mem_already]
  constructor
  · rintro (hin | ⟨it, hit, hok, heq⟩)
    · exact Or.inl ((seenMem_iff _ _).mpr hin)
    · right
      rw [hdel]
      unfold runStateAfter
      rw [sections_delivered]
      refine List.mem_map.mpr ⟨it, List.mem_filter.mpr ⟨hit, hok⟩, ?_⟩
      injection heq with h2
      exact h2.symm
  · rintro (hseen | hmem)
    · exact Or.inl ((seenMem_iff _ _).mp hseen)
    · right
      rw [hdel] at hmem
      unfold runStateAfter at hmem
      rw [sections_delivered] at hmem
      rcases List.mem_map.mp hmem with ⟨it, hit, hurl⟩
      have hit2 := List.mem_filter.mp hit
      exact ⟨it, hit2.1, hit2.2, by rw [hurl]⟩

/-- C5 witness: a 500 on the first attempt is a one-shot failure, and on a
concrete completed run the seen-set characterization holds for "a". -/
theorem C5_permanent_error_handling_witness :
    send_to_discord net500 5 = ⟨.error (.httpError 500), [], 1⟩ ∧
    ("a" ∈ ((run_once fsSeedA webAllDown netOK).getD junkRun).savedSeen ↔
      (seenMem ((run_once fsSeedA webAllDown netOK).getD junkRun).initialSeen "a" = true ∨
       "a" ∈ ((run_once fsSeedA webAllDown netOK).getD junkRun).delivered.map Item.url)) :=
  ⟨C5_permanent_error_handling.1 net500 (by decide) (by decide) (by decide),
   C5_permanent_error_handling.2 fsSeedA webAllDown netOK _ rfl "a"⟩

/-- C7: when the fetch of one configured source raises, the run still
completes, that source contributes no attempted item, and every
newly-discovered item of every other (fetchable) source is still attempted
— and delivered whenever its POST succeeds. -/
theorem C7_source_isolation (fs : FileState) (web : String → Except String (List Anchor))
    (net : Item → Nat → HttpResponse) (r : RunResult) (s u e : String)
    (h : run_once fs web net = some r) (hcp : (s, u) ∈ CHECK_PAGES)
    (hweb : web u = .error e) :
    (∀ it ∈ r.attempted, ¬it.sectionName = s) ∧
    (∀ s2 u2 doc, (s2, u2) ∈ CHECK_PAGES → web u2 = .ok doc →
      ∀ it ∈ extract_items s2 doc, seenMem r.initialSeen it.url = false →
        it ∈ r.attempted ∧
        (sendOk (send_to_discord (net it) 5) = true → it ∈ r.delivered)) := by
  obtain ⟨h0, hfin, hatt, hdel, hfail, hpost, hsort⟩ := run_once_elim fs web net r h
  constructor
  · intro it hit hsec
    rw [hatt] at hit
    unfold runStateAfter at hit
    rw [sections_attempted] at hit
    rcases List.mem_flatMap.mp hit with ⟨q, hq, hitq⟩
    rcases mem_collectNew_elim web r.initialSeen q hq with ⟨p, hp, doc, hwp, rfl⟩
    have hex : it ∈ extract_items p.1 doc := (List.mem_filter.mp hitq).1
    have hsecp := mem_extract_sectionName p.1 doc it hex
    have hps : p.1 = s := by rw [← hsecp, hsec]
    have hp2 : (s, p.2) ∈ CHECK_PAGES := by rw [← hps]; exact hp
    have hu : p.2 = u := CHECK_PAGES_url_unique s p.2 u hp2 hcp
    rw [hu, hweb] at hwp
    simp at hwp
  · intro s2 u2 doc hcp2 hweb2 it hit hfresh
    have hnew : it ∈ newItemsFor r.initialSeen s2 doc :=
      List.mem_filter.mpr ⟨hit, by rw [hfresh]; rfl⟩
    have hq := mem_collectNew_intro web r.initialSeen s2 u2 doc hcp2 hweb2
    have hflat : it ∈ (collectNew web r.initialSeen).flatMap (fun p => p.2) :=
      List.mem_flatMap.mpr ⟨(s2, newItemsFor r.initialSeen s2 doc), hq, hnew⟩
    constructor
    · rw [hatt]
      unfold runStateAfter
      rw [sections_attempted]
      exact hflat
    · intro hok
      rw [hdel]
      unfold runStateAfter
      rw [sections_delivered]
      exact List.mem_filter.mpr ⟨hflat, hok⟩

/-- C7 witness: Updates is down, yet the new News item is attempted and
delivered, and no attempted item belongs to Updates. -/
theorem C7_source_isolation_witness :
    newsItem ∈ ((run_once FileState.missing webNewsOnly netOK).getD junkRun).attempted ∧
    newsItem ∈ ((run_once FileState.missing webNewsOnly netOK).getD junkRun).delivered :=
  have h := C7_source_isolation FileState.missing webNewsOnly netOK
    ((run_once FileState.missing webNewsOnly netOK).getD junkRun)
    "Updates" "https://www.maplesea.com/updates" "down" rfl (by decide) rfl
  have h2 := h.2 "News" "https://www.maplesea.com/news" [newsAnchor] (by decide) rfl
    newsItem (by decide) (by decide)
  ⟨h2.1, h2.2 (by decide)⟩

/-- C10: the persisted seen set only grows: the loaded set is a sublist of
the final one, and every element of the final set is either a loaded
element or the url of an item delivered this run. -/
theorem C10_seen_monotone (fs : FileState) (web : String → Except String (List Anchor))
    (net : Item → Nat → HttpResponse) (r : RunResult)
    (h : run_once fs web net = some r) :
    r.initialSeen.Sublist r.finalSeen ∧
    (∀ j ∈ r.finalSeen, j ∈ r.initialSeen ∨ ∃ it, it ∈ r.delivered ∧ j = Json.str it.url) := by
  obtain ⟨h0, hfin, hatt, hdel, hfail, hpost, hsort⟩ := run_once_elim fs web net r h
  constructor
  · rw [hfin]
    unfold runStateAfter
    exact sections_already_sublist net (collectNew web r.initialSeen)
      { already := r.initialSeen, posted := 0, attempted := [], delivered := [], failed := [] }
  · intro j hj
    rw [hfin] at hj
    unfold runStateAfter at hj
    rcases (sections_mem_already net _ _ j).mp hj with hin | ⟨it, hit, hok, rfl⟩
    · exact Or.inl hin
    · refine Or.inr ⟨it, ?_, rfl⟩
      rw [hdel]
      unfold runStateAfter
      rw [sections_delivered]
      exact List.mem_filter.mpr ⟨hit, hok⟩

/-- C10 witness: a pre-seeded url survives into the final seen set of a
concrete run. -/
theorem C10_seen_monotone_witness :
    ((run_once fsSeedA webAllDown netOK).getD junkRun).initialSeen.Sublist
      ((run_once fsSeedA webAllDown netOK).getD junkRun).finalSeen :=
  (C10_seen_monotone fsSeedA webAllDown netOK _ rfl).1

/-! ### Helper lemmas: loading a saved seen set -/

theorem mem_foldl_pySetAdd_str (urls : List String) :
    ∀ (acc : List Json) (j : Json), j ∈ (urls.map Json.str).foldl pySetAdd acc ↔
      j ∈ acc ∨ ∃ u, u ∈ urls ∧ j = Json.str u := by
  induction urls with
  | nil => intro acc j; simp
  | cons v rest ih =>
    intro acc j
    rw [List.map_cons, List.foldl_cons, ih]
    have hps : pySetAdd acc (Json.str v) = seenInsert acc v := rfl
    rw [hps, mem_seenInsert]
    constructor
    · rintro ((hj | rfl) | ⟨u2, hu2, rfl⟩)
      · exact Or.inl hj
      · exact Or.inr ⟨v, List.mem_cons_self _ _, rfl⟩
      · exact Or.inr ⟨u2, List.mem_cons_of_mem _ hu2, rfl⟩
    · rintro (hj | ⟨u2, hu2, rfl⟩)
      · exact Or.inl (Or.inl hj)
      · rcases List.mem_cons.mp hu2 with rfl | h2
        · exact Or.inl (Or.inr rfl)
        · exact Or.inr ⟨u2, h2, rfl⟩

theorem initialSeenOf_savedJson (r : RunResult) :
    initialSeenOf (FileState.wellFormed (savedJson r)) =
      some ((r.savedSeen.map Json.str).foldl pySetAdd []) := rfl

theorem postSections_all_empty (net : Item → Nat → HttpResponse)
    (secs : List (String × List Item)) (h : ∀ q ∈ secs, q.2 = ([] : List Item)) :
    ∀ st : PostState, postSections net secs st = st := by
  induction secs with
  | nil => intro st; rfl
  | cons q rest ih =>
    intro st
    show postSections net rest (postSection net st q) = st
    rw [postSection_eq, h q (List.mem_cons_self _ _)]
    exact ih (fun q2 hq2 => h q2 (List.mem_cons_of_mem _ hq2)) st

/-- C9: after a run whose every attempted delivery succeeded, re-running on
the persisted state with the same (unchanged) source content posts zero
items: the saved seen set already covers every url the second run
extracts. -/
theorem C9_idempotent_second_run (fs : FileState)
    (web : String → Except String (List Anchor))
    (net net2 : Item → Nat → HttpResponse) (r1 : RunResult)
    (h1 : run_once fs web net = some r1) (hfail : r1.failed = []) :
    (run_once (FileState.wellFormed (savedJson r1)) web net2).map RunResult.posted = some 0 := by
  obtain ⟨h0, hfin, hatt, hdel, hfailE, hpost, hsort⟩ := run_once_elim fs web net r1 h1
  have hfilter : ((collectNew web r1.initialSeen).flatMap (fun p => p.2)).filter
      (fun it => !sendOk (send_to_discord (net it) 5)) = [] := by
    have he : r1.failed = ([] : List Item) ++
        ((collectNew web r1.initialSeen).flatMap (fun p => p.2)).filter
          (fun it => !sendOk (send_to_discord (net it) 5)) := by
      rw [hfailE]
      unfold runStateAfter
      rw [sections_failed]
    rw [hfail] at he
    simpa using he.symm
  have hallok : ∀ it ∈ (collectNew web r1.initialSeen).flatMap (fun p => p.2),
      sendOk (send_to_discord (net it) 5) = true := by
    intro it hit
    by_contra hno
    have hfalse : sendOk (send_to_discord (net it) 5) = false := by
      cases hb : sendOk (send_to_discord (net it) 5) with
      | true => exact absurd hb hno
      | false => rfl
    have hmem : it ∈ ((collectNew web r1.initialSeen).flatMap (fun p => p.2)).filter
        (fun it => !sendOk (send_to_discord (net it) 5)) :=
      List.mem_filter.mpr ⟨hit, by rw [hfalse]; rfl⟩
    rw [hfilter] at hmem
    simp at hmem
  have hmem2 : ∀ u : String,
      Json.str u ∈ (r1.savedSeen.map Json.str).foldl pySetAdd [] ↔ u ∈ r1.savedSeen := by
    intro u
    rw [mem_foldl_pySetAdd_str]
    simp
  have hsub : ∀ p ∈ CHECK_PAGES, ∀ doc, web p.2 = .ok doc →
      newItemsFor ((r1.savedSeen.map Json.str).foldl pySetAdd []) p.1 doc = [] := by
    intro p hp doc hw
    refine List.filter_eq_nil_iff.mpr ?_
    intro it hit
    have hin : Json.str it.url ∈ (runStateAfter r1.initialSeen web net).already := by
      by_cases hs : seenMem r1.initialSeen it.url = true
      · have hmem0 := (seenMem_iff _ _).mp hs
        unfold runStateAfter
        exact (sections_already_sublist net (collectNew web r1.initialSeen)
          { already := r1.initialSeen, posted := 0, attempted := [],
            delivered := [], failed := [] }).subset hmem0
      · have hfalse : seenMem r1.initialSeen it.url = false := by
          cases hb : seenMem r1.initialSeen it.url with
          | true => exact absurd hb hs
          | false => rfl
        have hnew : it ∈ newItemsFor r1.initialSeen p.1 doc :=
          List.mem_filter.mpr ⟨hit, by rw [hfalse]; rfl⟩
        have hq := mem_collectNew_intro web r1.initialSeen p.1 p.2 doc hp hw
        have hflat : it ∈ (collectNew web r1.initialSeen).flatMap (fun p => p.2) :=
          List.mem_flatMap.mpr ⟨(p.1, newItemsFor r1.initialSeen p.1 doc), hq, hnew⟩
        unfold runStateAfter
        exact (sections_mem_already net _ _ _).mpr (Or.inr ⟨it, hflat, hallok it hflat, rfl⟩)
    have h3 : Json.str it.url ∈ r1.finalSeen := by rw [hfin]; exact hin
    have h4 : it.url ∈ r1.savedSeen :=
      (pySortedUrls_mem r1.finalSeen r1.savedSeen hsort it.url).mpr h3
    have h5 : seenMem ((r1.savedSeen.map Json.str).foldl pySetAdd []) it.url = true :=
      (seenMem_iff _ _).mpr ((hmem2 it.url).mpr h4)
    simp [h5]
  have hempty : ∀ q ∈ collectNew web ((r1.savedSeen.map Json.str).foldl pySetAdd []),
      q.2 = ([] : List Item) := by
    intro q hq
    rcases mem_collectNew_elim web _ q hq with ⟨p, hp, doc, hw, rfl⟩
    exact hsub p hp doc hw
  have hels : ∀ j ∈ (r1.savedSeen.map Json.str).foldl pySetAdd [], ∃ s, j = Json.str s := by
    intro j hj
    rcases (mem_foldl_pySetAdd_str r1.savedSeen [] j).mp hj with hj0 | ⟨u2, _, rfl⟩
    · simp at hj0
    · exact ⟨u2, rfl⟩
  rcases allStrings_of_forall _ hels with ⟨strs2, hstrs2⟩
  unfold run_once
  rw [initialSeenOf_savedJson r1]
  dsimp only
  have hrsa : runStateAfter ((r1.savedSeen.map Json.str).foldl pySetAdd []) web net2 =
      { already := (r1.savedSeen.map Json.str).foldl pySetAdd [], posted := 0,
        attempted := [], delivered := [], failed := [] } := by
    unfold runStateAfter
    exact postSections_all_empty net2 _ hempty _
  rw [hrsa]
  have hsorted : pySortedUrls ((r1.savedSeen.map Json.str).foldl pySetAdd []) =
      some (pySorted strs2) := by
    unfold pySortedUrls
    rw [hstrs2]
  dsimp only
  rw [hsorted]
  rfl

/-- C9 witness: a first run delivering the single News item, then a second
run on its saved state, which posts nothing. -/
theorem C9_idempotent_second_run_witness :
    (run_once (FileState.wellFormed (savedJson
        ((run_once FileState.missing webNewsOnly netOK).getD junkRun)))
      webNewsOnly netOK).map RunResult.posted = some 0 :=
  C9_idempotent_second_run FileState.missing webNewsOnly netOK netOK
    ((run_once FileState.missing webNewsOnly netOK).getD junkRun) rfl rfl

/-- C1: the repository's own documentation ("backfill guard: post at most N
new items per section per run") promises the cap, but `run_once` never
applies `BACKFILL_CAP_PER_SECTION`: with sixteen newly-discovered items —
one more than the cap of 15 — all sixteen are POSTed and marked seen, and
none is silently skipped. -/
theorem C1_backfill_cap_not_enforced :
    (run_once FileState.missing webUpdates16 netOK).map
        (fun r => (r.posted, r.attempted.length, r.savedSeen.length)) = some (16, 16, 16) ∧
    BACKFILL_CAP_PER_SECTION = 15 := by
  constructor
  · decide
  · rfl

/-- C6 counterexample: a well-formed JSON document that is not an object
(here the empty array) has no `"seen"` key, yet it is not treated as an
empty seen set — `state.get` raises and the run dies. -/
theorem C6_nonobject_counterexample :
    initialSeenOf (FileState.wellFormed (Json.arr [])) = none ∧
    run_once (FileState.wellFormed (Json.arr [])) webAllDown netOK = none :=
  ⟨rfl, rfl⟩

/-- C6 (amended): loading the seen set yields the empty set on a missing,
unreadable or malformed state file, and on any well-formed JSON *object*
without a `"seen"` key (extra keys ignored); a well-formed non-object
document instead crashes the caller. -/
theorem C6_load_self_healing :
    initialSeenOf FileState.missing = some [] ∧
    initialSeenOf FileState.unreadable = some [] ∧
    initialSeenOf FileState.malformed = some [] ∧
    (∀ fields : List (String × Json), List.lookup "seen" fields = none →
      initialSeenOf (FileState.wellFormed (Json.obj fields)) = some []) := by
  refine ⟨rfl, rfl, rfl, ?_⟩
  intro fields h
  have hd : pyDictGet (load_state (FileState.wellFormed (Json.obj fields))) "seen" (Json.arr [])
      = some ((List.lookup "seen" fields).getD (Json.arr [])) := rfl
  unfold initialSeenOf
  rw [hd, h]
  rfl

/-- C6 witness: an object with only unrelated keys loads as the empty seen
set. -/
theorem C6_load_self_healing_witness :
    initialSeenOf (FileState.wellFormed (Json.obj [("extra", Json.num 1)])) = some [] :=
  C6_load_self_healing.2.2.2 [("extra", Json.num 1)] rfl

/-- C8 counterexample: with the webhook secret present, a run on a
well-formed non-object state file crashes instead of completing with a
summary. -/
theorem C8_crash_counterexample :
    notifier_main envOK (FileState.wellFormed (Json.arr [])) webAllDown netOK = .ok none :=
  rfl

/-- C8 (amended): a missing (or empty) webhook secret aborts with the fatal
configuration error before any fetch or state write — the outcome does not
depend on the state file, the web or the sink at all — and with the secret
present the program runs `run_once`, so whenever the run completes its
summary (posted and seen counts) is reported; a run can still die on a
corrupt non-object state file. -/
theorem C8_config_gate :
    (∀ env fs web net, (env "MAPLESEA_WEBHOOK_URL").getD "" = "" →
      notifier_main env fs web net = .error "Missing MAPLESEA_WEBHOOK_URL env var" ∧
      ∀ fs2 web2 net2, notifier_main env fs web net = notifier_main env fs2 web2 net2) ∧
    (∀ env fs web net r, ¬(env "MAPLESEA_WEBHOOK_URL").getD "" = "" →
      run_once fs web net = some r → notifier_main env fs web net = .ok (some r)) := by
  constructor
  · intro env fs web net h
    constructor
    · unfold notifier_main
      rw [if_pos h]
    · intro fs2 web2 net2
      unfold notifier_main
      rw [if_pos h, if_pos h]
  · intro env fs web net r h hr
    unfold notifier_main
    rw [if_neg h, hr]

/-- C8 witness: the missing-secret abort and a completed run with the
secret present. -/
theorem C8_config_gate_witness :
    notifier_main (fun _ => none) FileState.missing webAllDown netOK =
      .error "Missing MAPLESEA_WEBHOOK_URL env var" ∧
    notifier_main envOK fsSeedA webAllDown netOK =
      .ok (some ((run_once fsSeedA webAllDown netOK).getD junkRun)) :=
  ⟨(C8_config_gate.1 (fun _ => none) FileState.missing webAllDown netOK rfl).1,
   C8_config_gate.2 envOK fsSeedA webAllDown netOK
     ((run_once fsSeedA webAllDown netOK).getD junkRun) (by decide) rfl⟩

end MapleSea
